import Mathlib

/-!
Verification development for the flightbook generator's record-aggregation
and geospatial-annotation pipeline (`igc_parser.py`).

The Python source is shallowly embedded: pure computations become Lean
functions on `ℚ`/`ℤ`/`String`; the external collaborators (the Overpass
point-of-interest service, the Nominatim reverse geocoder, the geodesic
distance library, and the machine's local timezone) are gathered in an
`Env` record of response functions; exceptions are modelled with `Except`.
-/

namespace Flightbook

/-- Python `int()` applied to a float: truncation toward zero.
Used by the peak-sorting key, `int` of the candidate distance. -/
def pyInt (q : ℚ) : ℤ :=
  if 0 ≤ q then ⌊q⌋ else -⌊-q⌋

/-- Python built-in `round()` to the nearest integer: round-half-to-even
(banker's rounding), as used for thermal gains and airtime. -/
def pythonRound (q : ℚ) : ℤ :=
  let f : ℤ := ⌊q⌋
  let r : ℚ := q - f
  if r < 1/2 then f
  else if 1/2 < r then f + 1
  else if f % 2 = 0 then f else f + 1

/-- Digit run of a character list: the leading digits and the rest. -/
def takeDigits (cs : List Char) : List Char × List Char :=
  (cs.takeWhile Char.isDigit, cs.dropWhile Char.isDigit)

/-- Numeric value of a digit list (most significant first). -/
def digitsVal (ds : List Char) : ℕ :=
  ds.foldl (fun a c => 10 * a + (c.toNat - 48)) 0

/-- Core of the Python `float()` model: parses an optional sign followed by
`digits`, `digits.digits`, `digits.` or `.digits`. Returns `none` when the
string is not of this shape (modelling the `ValueError` that `float()`
raises). Exponent, infinity and NaN forms accepted by Python never arise
from elevation tags and are modelled as parse failures. -/
def parseDecimal (cs : List Char) : Option ℚ :=
  let (sign, cs1) : ℚ × List Char :=
    match cs with
    | '-' :: r => (-1, r)
    | '+' :: r => (1, r)
    | r => (1, r)
  let (ip, rest) := takeDigits cs1
  match rest with
  | [] => if ip.isEmpty then none else some (sign * digitsVal ip)
  | '.' :: rest2 =>
    let (fp, rest3) := takeDigits rest2
    if ¬rest3.isEmpty then none
    else if ip.isEmpty ∧ fp.isEmpty then none
    else some (sign * ((digitsVal ip : ℚ) + (digitsVal fp : ℚ) / (10 ^ fp.length : ℕ)))
  | _ => none

/-- Model of Python `float(s)`: strips surrounding spaces, then parses a
signed decimal literal; `none` models a raised `ValueError`. -/
def pythonFloat (s : String) : Option ℚ :=
  parseDecimal (((s.data.dropWhile (· = ' ')).reverse.dropWhile (· = ' ')).reverse)

/-- The `str.translate(tr)` call of the source (its `tr` table maps the
lowercase letter m to None and the comma to a dot): removes every lowercase
m character and turns each comma into a dot. -/
def translateTr (s : String) : String :=
  String.mk (s.data.filterMap (fun c =>
    if c = 'm' then none else if c = ',' then some '.' else some c))

/-- Left-to-right scan deleting every occurrence of the six-character
substring space-M-e-t-e-r, the `str.replace` call of the source (Python
replaces non-overlapping occurrences left to right). -/
def removeMeter : List Char → List Char
  | [] => []
  | ' ' :: 'M' :: 'e' :: 't' :: 'e' :: 'r' :: rest => removeMeter rest
  | c :: rest => c :: removeMeter rest

/-- Full elevation-string normalization from the source: the translate
step above followed by the replace step deleting the unit suffix. -/
def normalizeEle (s : String) : String :=
  String.mk (removeMeter (translateTr s).data)

/-- Civil date from a count of days since 1970-01-01 (proleptic Gregorian),
the arithmetic underlying `datetime.fromtimestamp`. Returns (year, month, day). -/
def civilFromDays (z0 : ℤ) : ℤ × ℤ × ℤ :=
  let z := z0 + 719468
  let era := z.ediv 146097
  let doe := z - era * 146097
  let yoe := (doe - doe.ediv 1460 + doe.ediv 36524 - doe.ediv 146096).ediv 365
  let y := yoe + era * 400
  let doy := doe - (365 * yoe + yoe.ediv 4 - yoe.ediv 100)
  let mp := (5 * doy + 2).ediv 153
  let d := doy - (153 * mp + 2).ediv 5 + 1
  let m := mp + (if mp < 10 then 3 else -9)
  (y + (if m ≤ 2 then 1 else 0), m, d)

/-- The fields of a Python naive `datetime` that the pipeline reads. -/
structure PyDateTime where
  year : ℤ
  month : ℤ
  day : ℤ
  hour : ℤ
  minute : ℤ
deriving Repr, DecidableEq

/-- Model of `datetime.fromtimestamp(ts)`: converts a Unix timestamp to a
naive local date-time by first shifting into the machine's local timezone
(offset in seconds) and then splitting into civil fields. The source calls
this with the machine's ambient timezone, so `tzOffset` is an environment
input; `datetime.utcfromtimestamp` corresponds to `tzOffset = 0`. -/
def datetime_fromtimestamp (tzOffset ts : ℤ) : PyDateTime :=
  let t := ts + tzOffset
  let days := t.ediv 86400
  let secs := t.emod 86400
  let (y, m, d) := civilFromDays days
  { year := y, month := m, day := d,
    hour := secs.ediv 3600, minute := (secs.emod 3600).ediv 60 }

/-- Two-digit zero padding as produced by `strftime` for `%H` and `%M`. -/
def pad2 (n : ℤ) : String :=
  if n < 10 then "0" ++ toString n else toString n

/-- Model of `dt.strftime` with the hour-colon-minute format used for the
takeoff and landing time columns. -/
def strftimeHM (dt : PyDateTime) : String :=
  pad2 dt.hour ++ ":" ++ pad2 dt.minute

/-- Insert an element into a list before the first entry it compares
less-or-equal to (the insertion step of a stable sort). -/
def insertLe {α : Type} (le : α → α → Bool) (x : α) : List α → List α
  | [] => [x]
  | y :: ys => if le x y then x :: y :: ys else y :: insertLe le x ys

/-- Stable sort by a total preorder (insertion sort). For a total,
transitive comparison there is exactly one stable ordering, so this is
extensionally the sort performed by Python `sorted` (Timsort, stable) and
by pandas for a multi-column key (stable indirect `numpy.lexsort`). -/
def stableSort {α : Type} (le : α → α → Bool) : List α → List α
  | [] => []
  | x :: xs => insertLe le x (stableSort le xs)

/-- Model of `statistics.median` on rationals: middle element of the sorted
data for odd length, mean of the two middle elements for even length. -/
def pyMedian (l : List ℚ) : ℚ :=
  let s := stableSort (fun a b => decide (a ≤ b)) l
  let n := s.length
  if n % 2 = 1 then s.getD (n / 2) 0
  else (s.getD (n / 2 - 1) 0 + s.getD (n / 2) 0) / 2

/-! ## Data model -/

/-- One position fix of the parsed track (external `igc_lib` type):
latitude, longitude, Unix timestamp, GNSS altitude. -/
structure Fix where
  lat : ℚ
  lon : ℚ
  timestamp : ℤ
  gnss_alt : ℤ
deriving Repr, DecidableEq

/-- One thermal segment of the parsed track, exposing its altitude gain
(`alt_change()`) and vertical velocity (`vertical_velocity()`). -/
structure Thermal where
  alt_change : ℚ
  vertical_velocity : ℚ
deriving Repr, DecidableEq

/-- The ParsedTrack collaborator (`igc_lib.Flight`): validity flag and
notes, glider type, designated takeoff and landing fixes, thermals. -/
structure Flight where
  valid : Bool
  notes : String
  glider_type : String
  takeoff_fix : Fix
  landing_fix : Fix
  thermals : List Thermal
deriving Repr, DecidableEq

/-- One node of an Overpass point-of-interest response: coordinate plus a
tag map (association list, e.g. keys `ele` and `name`). -/
structure Node where
  lat : ℚ
  lon : ℚ
  tags : List (String × String)
deriving Repr, DecidableEq

/-- An entry of the transient `peak_list` built by the resolver. -/
structure Peak where
  elevation : ℚ
  latitude : ℚ
  longitude : ℚ
  distance : ℚ
  name : String
deriving Repr, DecidableEq

/-- The optional city/village fields of a reverse-geocoded address. -/
structure Address where
  city : Option String
  village : Option String
deriving Repr, DecidableEq

/-- A geopy `Location`: raw latitude/longitude plus the address fields the
pipeline reads. -/
structure Location where
  lat : ℚ
  lon : ℚ
  address : Address
deriving Repr, DecidableEq

/-- The external collaborators of one run, modelled as response functions.
`overpass radius lat lon` is the point-of-interest query (`.error ()` models
a raised exception); `geodist` is `geopy.distance.distance(..).kilometers`;
`reverse lat lon` is `Nominatim.reverse` (`.error ()` models any raised
failure, including a missing result); `tzOffset` is the machine's local
timezone offset from UTC in seconds, consumed by `datetime.fromtimestamp`. -/
structure Env where
  overpass : ℤ → ℚ → ℚ → Except Unit (List Node)
  geodist : ℚ → ℚ → ℚ → ℚ → ℚ
  reverse : ℚ → ℚ → Except Unit Location
  tzOffset : ℤ

/-- The canonical output row, field for field the dict literal returned by
`parse_flight_details` (keys `Day`, `Month`, ..., `IGC File`). -/
structure FlightRecord where
  Day : ℤ
  Month : ℤ
  Year : ℤ
  Glider : String
  TakeoffTimeUTC : String
  TakeoffLocation : String
  TakeoffLatLon : String
  GPSAltitudeTakeoff : ℤ
  LandingTimeUTC : String
  LandingLocation : String
  LandingLatLon : String
  GPSAltitudeLanding : ℤ
  AirtimeMin : ℤ
  NumberOfThermals : ℕ
  ThermalGain : ℤ
  MedianThermalVelocity : ℚ
  IGCFile : String
deriving Repr, DecidableEq

/-! ## Nearest-Feature Resolver -/

/-- Tag-presence filter of the candidate loop: the node carries both an
elevation tag and a name tag (the membership tests on `node.tags.keys`). -/
def qualifies (node : Node) : Prop :=
  ((node.tags.lookup "ele").isSome = true) ∧ ((node.tags.lookup "name").isSome = true)

instance (node : Node) : Decidable (qualifies node) := by
  unfold qualifies; infer_instance

/-- The parsed elevation of a node: normalization then the float call.
`none` models the `ValueError` raised by `float()` on a malformed tag. -/
def nodeEle (node : Node) : Option ℚ :=
  pythonFloat (normalizeEle ((node.tags.lookup "ele").getD ""))

/-- One iteration of the candidate loop of `find_closest_peak_to_location`:
skip the node when a tag is missing, otherwise parse its elevation (a parse
failure raises, which the surrounding catch-all turns into the fallback) and
append the peak entry with its geodesic distance to the query coordinate. -/
def processNode (env : Env) (location : Location) (acc : List Peak) (node : Node) :
    Except Unit (List Peak) :=
  if qualifies node then
    match nodeEle node with
    | none => .error ()
    | some ele =>
      .ok (acc ++ [{ elevation := ele, latitude := node.lat, longitude := node.lon,
                     distance := env.geodist node.lat node.lon location.lat location.lon,
                     name := (node.tags.lookup "name").getD "" }])
  else .ok acc

/-- The whole candidate loop: builds `peak_list` left to right; an
elevation-parse failure anywhere aborts with an error (the exception
propagating out of the for-loop). -/
def buildPeakList (env : Env) (location : Location) (nodes : List Node) :
    Except Unit (List Peak) :=
  nodes.foldlM (processNode env location) []

/-- The comparison used by the source sort key: integer-truncated distance. -/
def peakLe (a b : Peak) : Bool :=
  decide (pyInt a.distance ≤ pyInt b.distance)

/-- `find_closest_peak_to_location`: queries the point-of-interest service,
builds the qualifying candidate list, sorts it by integer-truncated distance
(Python `sorted` is stable) and returns the first name; any raised error and
the empty candidate list both yield the fallback label. Total: never raises. -/
def find_closest_peak_to_location (env : Env) (location : Location)
    (search_radius_meters : ℤ := 2000) : String :=
  match (do
    let response ← env.overpass search_radius_meters location.lat location.lon
    let peak_list ← buildPeakList env location response
    let peaks_sorted := stableSort peakLe peak_list
    pure (match peaks_sorted.head? with
          | some p => p.name
          | none => "Unknown Location") : Except Unit String) with
  | .ok s => s
  | .error _ => "Unknown Location"

/-! ## Place Resolver and Flight Extractor -/

/-- The landing place extraction (the city/village lines of
`parse_flight_details`): the city entry of the address if it is a non-empty
string (Python truthiness), else the village entry, else the empty string. -/
def place_resolver (location : Location) : String :=
  let landing_city := location.address.city.getD ""
  let landing_village := location.address.village.getD ""
  if landing_city ≠ "" then landing_city else landing_village

/-- The lat-comma-lon display string of a fix (an f-string in the source;
the exact Python float rendering is not modelled, an injective rendering of
the two rational coordinates stands in — no claim depends on the digits). -/
def latLonString (f : Fix) : String :=
  toString f.lat.num ++ "/" ++ toString f.lat.den ++ "," ++
  toString f.lon.num ++ "/" ++ toString f.lon.den

/-- `parse_flight_details` on an already-parsed track (`igc_lib` and the
filesystem read are the external parser collaborator, so the embedding takes
the `Flight` and file name directly). Returns `.ok none` for the
invalid-track skip, `.error ()` when a reverse-geocoding call raises (no
handler exists in this function), and `.ok (some record)` otherwise. -/
def parse_flight_details (env : Env) (flight : Flight) (igc_name : String) :
    Except Unit (Option FlightRecord) :=
  if flight.valid = false then .ok none
  else do
    let location_takeoff ← env.reverse flight.takeoff_fix.lat flight.takeoff_fix.lon
    let dt_takeoff := datetime_fromtimestamp env.tzOffset flight.takeoff_fix.timestamp
    let location_landing ← env.reverse flight.landing_fix.lat flight.landing_fix.lon
    let dt_landing := datetime_fromtimestamp env.tzOffset flight.landing_fix.timestamp
    let location_landing_str := place_resolver location_landing
    let thermal_gain := flight.thermals.foldl (fun acc t => acc + pythonRound t.alt_change) 0
    let thermal_velocities := flight.thermals.map (fun t => t.vertical_velocity)
    let median_thermal_velocity :=
      if ¬thermal_velocities.isEmpty then pyMedian thermal_velocities else 0
    pure (some
      { Day := dt_landing.day
        Month := dt_landing.month
        Year := dt_landing.year
        Glider := flight.glider_type
        TakeoffTimeUTC := strftimeHM dt_takeoff
        TakeoffLocation := find_closest_peak_to_location env location_takeoff
        TakeoffLatLon := latLonString flight.takeoff_fix
        GPSAltitudeTakeoff := flight.takeoff_fix.gnss_alt
        LandingTimeUTC := strftimeHM dt_landing
        LandingLocation := location_landing_str
        LandingLatLon := latLonString flight.landing_fix
        GPSAltitudeLanding := flight.landing_fix.gnss_alt
        AirtimeMin := pythonRound
          (((flight.landing_fix.timestamp - flight.takeoff_fix.timestamp : ℤ) : ℚ) / 60)
        NumberOfThermals := flight.thermals.length
        ThermalGain := thermal_gain
        MedianThermalVelocity := median_thermal_velocity
        IGCFile := igc_name })

/-! ## Flight Book Writer and Pipeline Orchestrator -/

/-- Lexicographic date order on records, the multi-column sort key
(Year, Month, Day) of the writer. -/
def dateLeP (a b : FlightRecord) : Prop :=
  a.Year < b.Year ∨ (a.Year = b.Year ∧
    (a.Month < b.Month ∨ (a.Month = b.Month ∧ a.Day ≤ b.Day)))

instance (a b : FlightRecord) : Decidable (dateLeP a b) := by
  unfold dateLeP; infer_instance

/-- Boolean form of the date order, for the sort. -/
def dateLe (a b : FlightRecord) : Bool :=
  decide (dateLeP a b)

/-- Equality of the (Year, Month, Day) sort key of two records. -/
def sameDate (a b : FlightRecord) : Prop :=
  a.Year = b.Year ∧ a.Month = b.Month ∧ a.Day = b.Day

/-- The persistence step of the loop body: builds a pandas frame from the
accumulated dict list and sorts it on the Year, Month, Day columns. On an
empty record list the frame built by `DataFrame.from_dict` has no columns at
all, so `sort_values` raises a `KeyError` for the Year column — modelled as
`.error ()`. On a nonempty list the sort is the stable lexicographic sort
that pandas performs for a multi-column key (it uses the stable indirect
sort `numpy.lexsort`; the subsequent `to_csv` writes the full table). -/
def sort_values (rs : List FlightRecord) : Except Unit (List FlightRecord) :=
  if rs.isEmpty then .error ()
  else .ok (stableSort dateLe rs)

/-- One iteration of the per-source loop: extract the file, append the
record when one was produced, sort and persist the full accumulated table.
Returns the new accumulator and the table just written, or the exception
that escaped the iteration. -/
def runStep (env : Env) (acc : List FlightRecord) (file : String × Flight) :
    Except Unit (List FlightRecord × List FlightRecord) := do
  let fd ← parse_flight_details env file.2 file.1
  let table ← sort_values (acc ++ fd.toList)
  pure (acc ++ fd.toList, table)

/-- Outcome of a run: the list of tables persisted to the output file, in
write order (the last entry is the final file content), and whether the
loop ran to completion (no exception escaped). -/
structure RunResult where
  trace : List (List FlightRecord)
  completed : Bool
deriving Repr, DecidableEq

/-- The per-source loop of `parse_flights`: files are processed in order;
there is no exception handler in the loop, so the first escaping exception
terminates the run, leaving the remaining files unprocessed. -/
def runLoop (env : Env) : List (String × Flight) → List FlightRecord → RunResult
  | [], _ => ⟨[], true⟩
  | f :: rest, acc =>
    match runStep env acc f with
    | .error _ => ⟨[], false⟩
    | .ok (acc2, table) =>
      let r := runLoop env rest acc2
      ⟨table :: r.trace, r.completed⟩

/-- `parse_flights`: the input-validation guards (missing folders, empty
enumeration all return early with a message and no writes) followed by the
per-source loop started with an empty accumulator. The enumerated file list
stands for the recursive case-insensitive glob, with the external parser
already applied to each path. -/
def parse_flights (env : Env) (igc_folder output_folder : String)
    (files : List (String × Flight)) : RunResult :=
  if igc_folder = "" then ⟨[], true⟩
  else if output_folder = "" then ⟨[], true⟩
  else if files.isEmpty then ⟨[], true⟩
  else runLoop env files []

/-- The record produced for a file, with both failure modes collapsed to
`none` (projection used to state facts about single extractions). -/
def extractedRecord (e : Except Unit (Option FlightRecord)) : Option FlightRecord :=
  match e with
  | .ok r => r
  | .error _ => none

/-! ## Concrete test data (service responses, tracks, environments) -/

/-- An address carrying only a village entry. -/
def locDorf : Location := ⟨47, 13, ⟨none, some "Dorf"⟩⟩

/-- An address carrying both a city and a village entry. -/
def locStadt : Location := ⟨47, 13, ⟨some "Stadt", some "Dorf"⟩⟩

/-- An address whose city entry is present but an empty string. -/
def locEmptyCity : Location := ⟨47, 13, ⟨some "", some "Dorf"⟩⟩

/-- An address with neither a city nor a village entry. -/
def locNoPlace : Location := ⟨47, 13, ⟨none, none⟩⟩

/-- A takeoff location distinct from the landing one. -/
def locTake : Location := ⟨201, 11, ⟨none, none⟩⟩

/-- Benign collaborators: empty peak response, zero distances, reverse
geocoding always answering with the village-only address, UTC machine. -/
def envNull : Env := ⟨fun _ _ _ => .ok [], fun _ _ _ _ => 0, fun _ _ => .ok locDorf, 0⟩

/-- A track whose parser validity flag is false. -/
def flightInvalid : Flight := ⟨false, "bad B records", "G1", ⟨0, 0, 0, 0⟩, ⟨0, 0, 0, 0⟩, []⟩

/-- A valid track taking off at latitude 1 (used with `envC1`, whose
reverse geocoder fails exactly there). -/
def flightA : Flight := ⟨true, "", "Alpha", ⟨1, 11, 84600, 800⟩, ⟨3, 12, 85200, 400⟩, []⟩

/-- A second valid track, away from the failing coordinate. -/
def flightB : Flight := ⟨true, "", "Beta", ⟨2, 11, 100000, 900⟩, ⟨2, 12, 103000, 500⟩, []⟩

/-- Collaborators whose reverse geocoder raises exactly at latitude 1,
the takeoff coordinate of `flightA`. -/
def envC1 : Env :=
  ⟨fun _ _ _ => .ok [], fun _ _ _ _ => 0,
   fun lat _ => if lat = 1 then .error () else .ok locDorf, 0⟩

/-- A machine one hour east of UTC (offset 3600 seconds). -/
def envTz : Env := ⟨fun _ _ _ => .ok [], fun _ _ _ _ => 0, fun _ _ => .ok locDorf, 3600⟩

/-- A valid track taking off 1970-01-01 at 23:30 UTC and landing at
23:40 UTC, so that the local calendar day east of UTC differs from the
UTC one. -/
def flightC3 : Flight := ⟨true, "", "Gamma", ⟨10, 11, 84600, 800⟩, ⟨10, 12, 85200, 400⟩, []⟩

/-- Qualifying peak nodes (both tags present, clean elevations). -/
def nodeP1 : Node := ⟨101, 11, [("ele", "2100"), ("name", "P1")]⟩

/-- Second qualifying peak node. -/
def nodeP2 : Node := ⟨102, 11, [("ele", "1900"), ("name", "P2")]⟩

/-- Third qualifying peak node. -/
def nodeP3 : Node := ⟨103, 11, [("ele", "1800"), ("name", "P3")]⟩

/-- The distance table of the specification example: the three candidates
lie 5.0, 1.2 and 3.4 kilometers from any query coordinate. -/
def distExample (la : ℚ) : ℚ :=
  if la = 101 then 5 else if la = 102 then 6/5 else 17/5

/-- Collaborators answering the point-of-interest query with the three
candidates of the specification example. -/
def envPeaks : Env :=
  ⟨fun _ _ _ => .ok [nodeP1, nodeP2, nodeP3],
   fun la _ _ _ => distExample la, fun _ _ => .ok locDorf, 0⟩

/-- The candidate list that the loop builds from `envPeaks`. -/
def peaksW : List Peak :=
  [⟨2100, 101, 11, 5, "P1"⟩, ⟨1900, 102, 11, 6/5, "P2"⟩, ⟨1800, 103, 11, 17/5, "P3"⟩]

/-- Collaborators whose point-of-interest query raises. -/
def envErr : Env := ⟨fun _ _ _ => .error (), fun _ _ _ _ => 0, fun _ _ => .ok locDorf, 0⟩

/-- A response node lacking both the elevation and the name tag. -/
def nodeUntagged : Node := ⟨50, 11, [("natural", "peak")]⟩

/-- Collaborators returning only the untagged node. -/
def envUntagged : Env :=
  ⟨fun _ _ _ => .ok [nodeUntagged], fun _ _ _ _ => 0, fun _ _ => .ok locDorf, 0⟩

/-- A tagged node whose elevation string does not parse as a number. -/
def nodeBad : Node := ⟨60, 11, [("ele", "high"), ("name", "Bad")]⟩

/-- Collaborators returning one malformed and one well-formed candidate. -/
def envC6 : Env :=
  ⟨fun _ _ _ => .ok [nodeBad, nodeP2], fun la _ _ _ => distExample la,
   fun _ _ => .ok locDorf, 0⟩

/-- The same response with the malformed candidate removed. -/
def envC6good : Env :=
  ⟨fun _ _ _ => .ok [nodeP2], fun la _ _ _ => distExample la,
   fun _ _ => .ok locDorf, 0⟩

/-- Collaborators resolving the takeoff coordinate (latitude 1) to
`locTake` and every other coordinate to `locDorf`. -/
def envC7 : Env :=
  ⟨fun _ _ _ => .ok [], fun _ _ _ _ => 0,
   fun lat _ => if lat = 1 then .ok locTake else .ok locDorf, 0⟩

/-- A valid track with two thermals whose gains 10.5 and 11.5 round (to
even) to 10 and 12. -/
def flightThermals : Flight :=
  ⟨true, "", "Delta", ⟨5, 11, 1000, 100⟩, ⟨5, 12, 4000, 200⟩, [⟨21/2, 1⟩, ⟨23/2, 2⟩]⟩

/-- A flight record dated 2021-01-01 (remaining fields arbitrary). -/
def recA : FlightRecord :=
  ⟨1, 1, 2021, "G", "10:00", "L", "c", 100, "11:00", "M", "d", 50, 60, 0, 0, 0, "a.igc"⟩

/-- A flight record dated 2020-05-02, earlier than `recA`. -/
def recB : FlightRecord :=
  ⟨2, 5, 2020, "H", "09:00", "N", "e", 200, "09:30", "O", "f", 150, 30, 0, 0, 0, "b.igc"⟩

/-- A run over a single valid file, used to exhibit a persisted table. -/
def runW : RunResult := parse_flights envNull "igc" "out" [("b.igc", flightB)]

/-- The single table persisted by `runW`. -/
def tblW : List FlightRecord := runW.trace.headD []

/-! ## Helper lemmas -/

theorem exceptBind_ok {α β : Type} (a : α) (k : α → Except Unit β) :
    ((.ok a : Except Unit α) >>= k) = k a := rfl

theorem exceptBind_error {α β : Type} (k : α → Except Unit β) :
    ((.error () : Except Unit α) >>= k) = .error () := rfl

theorem pyInt_mono {a b : ℚ} (h : a ≤ b) : pyInt a ≤ pyInt b := by
  unfold pyInt
  split_ifs with ha hb hb
  · exact Int.floor_le_floor h
  · exact absurd (ha.trans h) hb
  · have h1 : (0 : ℤ) ≤ ⌊b⌋ := Int.floor_nonneg.mpr hb
    have h2 : (0 : ℤ) ≤ ⌊-a⌋ := Int.floor_nonneg.mpr (by push_neg at ha; linarith)
    omega
  · have h3 : ⌊-b⌋ ≤ ⌊-a⌋ := Int.floor_le_floor (by linarith)
    omega

theorem pyInt_lt {a b : ℚ} (h : pyInt a < pyInt b) : a < b := by
  by_contra hc
  push_neg at hc
  exact absurd (pyInt_mono hc) (by omega)

theorem peakLe_trans : ∀ a b c : Peak, peakLe a b → peakLe b c → peakLe a c := by
  intro a b c hab hbc
  simp only [peakLe, decide_eq_true_eq] at *
  omega

theorem peakLe_total : ∀ a b : Peak, peakLe a b || peakLe b a := by
  intro a b
  simp only [peakLe, Bool.or_eq_true, decide_eq_true_eq]
  omega

theorem dateLe_trans : ∀ a b c : FlightRecord, dateLe a b → dateLe b c → dateLe a c := by
  intro a b c hab hbc
  simp only [dateLe, dateLeP, decide_eq_true_eq] at *
  omega

theorem dateLe_total : ∀ a b : FlightRecord, dateLe a b || dateLe b a := by
  intro a b
  simp only [dateLe, dateLeP, Bool.or_eq_true, decide_eq_true_eq]
  omega

theorem insertLe_perm {α : Type} (le : α → α → Bool) (x : α) :
    ∀ u : List α, (insertLe le x u).Perm (x :: u) := by
  intro u
  induction u with
  | nil => exact List.Perm.refl _
  | cons y ys ih =>
    simp only [insertLe]
    by_cases h : le x y
    · rw [if_pos h]
    · rw [if_neg h]
      exact (ih.cons y).trans (List.Perm.swap x y ys)

theorem stableSort_perm {α : Type} (le : α → α → Bool) :
    ∀ l : List α, (stableSort le l).Perm l := by
  intro l
  induction l with
  | nil => exact List.Perm.refl _
  | cons x xs ih =>
    simp only [stableSort]
    exact (insertLe_perm le x _).trans (ih.cons x)

theorem mem_insertLe {α : Type} (le : α → α → Bool) (x z : α) (u : List α) :
    z ∈ insertLe le x u ↔ z = x ∨ z ∈ u := by
  rw [(insertLe_perm le x u).mem_iff, List.mem_cons]

theorem pairwise_insertLe {α : Type} {le : α → α → Bool}
    (htrans : ∀ a b c, le a b → le b c → le a c)
    (htotal : ∀ a b, le a b || le b a) (x : α) :
    ∀ u : List α, u.Pairwise (le · · = true) →
      (insertLe le x u).Pairwise (le · · = true) := by
  intro u
  induction u with
  | nil => simp [insertLe]
  | cons y ys ih =>
    intro hp
    obtain ⟨hy, hys⟩ := List.pairwise_cons.mp hp
    simp only [insertLe]
    by_cases h : le x y
    · rw [if_pos h]
      refine List.pairwise_cons.mpr ⟨?_, hp⟩
      intro z hz
      rcases List.mem_cons.mp hz with rfl | hzys
      · exact h
      · exact htrans x y z h (hy z hzys)
    · rw [if_neg h]
      refine List.pairwise_cons.mpr ⟨?_, ih hys⟩
      intro z hz
      rcases (mem_insertLe le x z ys).mp hz with hzx | hzys
      · subst hzx
        have ht := htotal z y
        rw [Bool.eq_false_iff.mpr (fun hc => h hc)] at ht
        simpa using ht
      · exact hy z hzys

theorem stableSort_pairwise {α : Type} {le : α → α → Bool}
    (htrans : ∀ a b c, le a b → le b c → le a c)
    (htotal : ∀ a b, le a b || le b a) :
    ∀ l : List α, (stableSort le l).Pairwise (le · · = true) := by
  intro l
  induction l with
  | nil => simp [stableSort]
  | cons x xs ih =>
    simp only [stableSort]
    exact pairwise_insertLe htrans htotal x _ ih

theorem insertLe_decomp {α : Type} (le : α → α → Bool) (x : α) :
    ∀ u : List α, ∃ p q, u = p ++ q ∧ insertLe le x u = p ++ x :: q ∧
      ∀ y ∈ p, le x y = false := by
  intro u
  induction u with
  | nil => exact ⟨[], [], rfl, rfl, by simp⟩
  | cons y ys ih =>
    by_cases h : le x y
    · refine ⟨[], y :: ys, rfl, ?_, by simp⟩
      simp only [insertLe]
      rw [if_pos h]
      rfl
    · obtain ⟨p, q, hu, hins, hflt⟩ := ih
      refine ⟨y :: p, q, by simp [hu], ?_, ?_⟩
      · simp only [insertLe]
        rw [if_neg h, hins]
        rfl
      · intro z hz
        rcases List.mem_cons.mp hz with rfl | hzp
        · exact Bool.eq_false_iff.mpr (fun hc => h hc)
        · exact hflt z hzp

theorem sublist_insertLe {α : Type} (le : α → α → Bool) (x : α) (u : List α) :
    u.Sublist (insertLe le x u) := by
  obtain ⟨p, q, hu, hins, _⟩ := insertLe_decomp le x u
  rw [hins, hu]
  exact List.Sublist.append_left (List.sublist_cons_self x q) p

theorem sublist_of_append_disjoint {α : Type} :
    ∀ {p q s : List α}, s.Sublist (p ++ q) → (∀ a ∈ s, a ∉ p) → s.Sublist q := by
  intro p
  induction p with
  | nil => intro q s h _; simpa using h
  | cons y p' ih =>
    intro q s h hd
    rcases List.sublist_cons_iff.mp h with h' | ⟨r, rfl, hr⟩
    · exact ih h' (fun a ha hap => hd a ha (List.mem_cons_of_mem _ hap))
    · exact ((hd y (List.mem_cons_self y r)) (List.mem_cons_self y p')).elim

/-- Stability: a sublist that is already ordered survives the sort. -/
theorem stableSort_stable {α : Type} {le : α → α → Bool} :
    ∀ (l s : List α), s.Sublist l → s.Pairwise (le · · = true) →
      s.Sublist (stableSort le l) := by
  intro l
  induction l with
  | nil =>
    intro s h _
    have hs : s = [] := by simpa using h
    subst hs
    exact List.nil_sublist _
  | cons x xs ih =>
    intro s h hp
    rcases List.sublist_cons_iff.mp h with h' | ⟨r, rfl, hr⟩
    · exact (ih s h' hp).trans (sublist_insertLe le x _)
    · obtain ⟨hx, hrp⟩ := List.pairwise_cons.mp hp
      have hru : r.Sublist (stableSort le xs) := ih r hr hrp
      obtain ⟨p, q, hu, hins, hflt⟩ := insertLe_decomp le x (stableSort le xs)
      have hdisj : ∀ a ∈ r, a ∉ p := by
        intro a ha hap
        have h1 := hx a ha
        have h2 := hflt a hap
        rw [h1] at h2
        exact Bool.noConfusion h2
      have hrq : r.Sublist q := sublist_of_append_disjoint (hu ▸ hru) hdisj
      simp only [stableSort]
      rw [hins]
      exact List.sublist_append_of_sublist_right (List.cons_sublist_cons.mpr hrq)

/-- The head of the stable sort is the first element, in input order, whose
key is minimal: the input decomposes around that element with every earlier
element comparing strictly greater. -/
theorem head_stableSort_firstMin {α : Type} (le : α → α → Bool)
    (htrans : ∀ a b c, le a b → le b c → le a c)
    (htotal : ∀ a b, le a b || le b a) :
    ∀ l : List α, l ≠ [] → ∃ l1 c l2, l = l1 ++ c :: l2 ∧
      (stableSort le l).head? = some c ∧
      (∀ d ∈ l, le c d = true) ∧ (∀ d ∈ l1, le d c = false) := by
  intro l
  induction l with
  | nil => intro h; exact absurd rfl h
  | cons x l ih =>
    intro _
    by_cases hl : l = []
    · subst hl
      refine ⟨[], x, [], rfl, rfl, ?_, by simp⟩
      intro d hd
      have hdx : d = x := by simpa using hd
      subst hdx
      simpa using htotal d d
    · obtain ⟨m1, c, m2, e, hhead, hmin, hfirst⟩ := ih hl
      obtain ⟨s', hs'⟩ : ∃ s', stableSort le l = c :: s' := by
        cases hsl : stableSort le l with
        | nil => rw [hsl] at hhead; exact absurd hhead (by simp)
        | cons a as =>
          rw [hsl] at hhead
          simp only [List.head?_cons, Option.some.injEq] at hhead
          exact ⟨as, by rw [hhead]⟩
      by_cases hxc : le x c
      · refine ⟨[], x, l, rfl, ?_, ?_, by simp⟩
        · show (stableSort le (x :: l)).head? = some x
          simp only [stableSort]
          rw [hs']
          simp only [insertLe]
          rw [if_pos hxc]
          rfl
        · intro d hd
          rcases List.mem_cons.mp hd with rfl | hdl
          · simpa using htotal d d
          · exact htrans x c d hxc (hmin d hdl)
      · have hxcf : le x c = false := Bool.eq_false_iff.mpr (fun hc => hxc hc)
        refine ⟨x :: m1, c, m2, by rw [e]; rfl, ?_, ?_, ?_⟩
        · show (stableSort le (x :: l)).head? = some c
          simp only [stableSort]
          rw [hs']
          simp only [insertLe]
          rw [if_neg hxc]
          rfl
        · intro d hd
          rcases List.mem_cons.mp hd with rfl | hdl
          · have ht := htotal d c
            rw [hxcf] at ht
            simpa using ht
          · exact hmin d hdl
        · intro d hd
          rcases List.mem_cons.mp hd with rfl | hdm
          · exact hxcf
          · exact hfirst d hdm

/-- A response in which no node carries both tags builds an unchanged
(`empty` when started empty) candidate list. -/
theorem foldlM_processNode_nonqual (env : Env) (loc : Location) :
    ∀ (nodes : List Node) (acc : List Peak), (∀ n ∈ nodes, ¬qualifies n) →
      List.foldlM (processNode env loc) acc nodes = .ok acc := by
  intro nodes
  induction nodes with
  | nil => intro acc _; rfl
  | cons m rest ih =>
    intro acc h
    have hm : ¬qualifies m := h m (List.mem_cons_self _ _)
    have hstep : processNode env loc acc m = .ok acc := by
      unfold processNode
      simp [hm]
    simp only [List.foldlM_cons, hstep, exceptBind_ok]
    exact ih acc (fun n hn => h n (List.mem_cons_of_mem _ hn))

/-- A qualifying node whose elevation fails to parse makes the whole
candidate loop raise, regardless of the other nodes. -/
theorem foldlM_processNode_error (env : Env) (loc : Location) :
    ∀ (nodes : List Node) (acc : List Peak) (n : Node), n ∈ nodes → qualifies n →
      nodeEle n = none → List.foldlM (processNode env loc) acc nodes = .error () := by
  intro nodes
  induction nodes with
  | nil => intro acc n h _ _; simp at h
  | cons m rest ih =>
    intro acc n hmem hq he
    rcases List.mem_cons.mp hmem with rfl | hrest
    · have hstep : processNode env loc acc n = .error () := by
        unfold processNode
        simp [hq, he]
      simp only [List.foldlM_cons, hstep, exceptBind_error]
    · cases hp : processNode env loc acc m with
      | error e =>
        cases e
        simp only [List.foldlM_cons, hp, exceptBind_error]
      | ok acc2 =>
        simp only [List.foldlM_cons, hp, exceptBind_ok]
        exact ih acc2 n hrest hq he

theorem sort_values_spec {rs t : List FlightRecord} (h : sort_values rs = .ok t) :
    t.Pairwise dateLeP ∧ t.Perm rs ∧
      ∀ s : List FlightRecord, s.Sublist rs → s.Pairwise sameDate → s.Sublist t := by
  unfold sort_values at h
  by_cases hrs : rs.isEmpty
  · rw [if_pos hrs] at h
    exact absurd h (by simp)
  · rw [if_neg hrs] at h
    injection h with h
    subst h
    refine ⟨?_, stableSort_perm dateLe rs, ?_⟩
    · have hp := stableSort_pairwise dateLe_trans dateLe_total rs
      exact hp.imp (fun hab => by simpa [dateLe, decide_eq_true_eq] using hab)
    · intro s hs hsd
      apply stableSort_stable rs s hs
      refine hsd.imp (fun hab => ?_)
      obtain ⟨h1, h2, h3⟩ := hab
      simp only [dateLe, decide_eq_true_eq, dateLeP]
      omega

/-- Inversion of one loop iteration that completed without an exception. -/
theorem runStep_ok {env : Env} {acc : List FlightRecord} {f : String × Flight}
    {acc2 table : List FlightRecord} (h : runStep env acc f = .ok (acc2, table)) :
    ∃ fd, parse_flight_details env f.2 f.1 = .ok fd ∧
      acc2 = acc ++ fd.toList ∧ sort_values (acc ++ fd.toList) = .ok table := by
  unfold runStep at h
  cases hp : parse_flight_details env f.2 f.1 with
  | error e =>
    cases e
    rw [hp, exceptBind_error] at h
    exact absurd h (by simp)
  | ok fd =>
    rw [hp, exceptBind_ok] at h
    cases hs : sort_values (acc ++ fd.toList) with
    | error e =>
      cases e
      rw [hs, exceptBind_error] at h
      exact absurd h (by simp)
    | ok t2 =>
      rw [hs, exceptBind_ok] at h
      simp only [pure, Except.pure, Except.ok.injEq, Prod.mk.injEq] at h
      exact ⟨fd, rfl, h.1.symm, h.2 ▸ hs⟩

/-- Every table a run persists is an output of the sort step. -/
theorem runLoop_trace_sorted (env : Env) :
    ∀ (files : List (String × Flight)) (acc t : List FlightRecord),
      t ∈ (runLoop env files acc).trace → t.Pairwise dateLeP := by
  intro files
  induction files with
  | nil => intro acc t ht; simp [runLoop] at ht
  | cons f rest ih =>
    intro acc t ht
    unfold runLoop at ht
    cases hs : runStep env acc f with
    | error e => rw [hs] at ht; simp at ht
    | ok p =>
      obtain ⟨acc2, table⟩ := p
      rw [hs] at ht
      simp only [List.mem_cons] at ht
      rcases ht with rfl | ht
      · obtain ⟨fd, _, _, hsort⟩ := runStep_ok hs
        exact (sort_values_spec hsort).1
      · exact ih acc2 t ht

/-- Unfolding equation of the per-source loop at a cons cell. -/
theorem runLoop_cons (env : Env) (f : String × Flight)
    (rest : List (String × Flight)) (acc : List FlightRecord) :
    runLoop env (f :: rest) acc =
      match runStep env acc f with
      | .error _ => ⟨[], false⟩
      | .ok (acc2, table) =>
        ⟨table :: (runLoop env rest acc2).trace, (runLoop env rest acc2).completed⟩ := rfl

/-- The running-total loop over thermals equals the sum of the individually
rounded gains. -/
theorem foldl_round_eq_sum :
    ∀ (ts : List Thermal) (init : ℤ),
      ts.foldl (fun acc t => acc + pythonRound t.alt_change) init =
        init + (ts.map (fun t => pythonRound t.alt_change)).sum := by
  intro ts
  induction ts with
  | nil => intro init; simp
  | cons t rest ih =>
    intro init
    simp only [List.foldl_cons, List.map_cons, List.sum_cons, ih]
    omega

/-! ## Claims -/

/-- C1, counterexample. The claim says an unexpected extraction failure
(here: the reverse geocoder raising on the first file) skips only that file
and the run continues. In the code the per-source loop has no handler: the
run terminates with nothing persisted and the perfectly fine second file is
never processed — alone, that same second file completes a run. -/
theorem c1_counterexample :
    parse_flights envC1 "igc" "out" [("a.igc", flightA), ("b.igc", flightB)] =
      ⟨[], false⟩ ∧
    (parse_flights envC1 "igc" "out" [("b.igc", flightB)]).completed = true := by
  constructor
  · with_unfolding_all rfl
  · with_unfolding_all rfl

/-- C1, amended. Only a track whose parser validity flag is false is
skipped with the loop continuing (provided records have accumulated so the
persistence step succeeds); an unexpected exception while extracting a
file's statistics — such as a place-resolution failure — propagates out of
the loop and terminates the run, leaving every remaining file unprocessed
and the persisted output unchanged. -/
theorem c1_amended (env : Env) (f : String × Flight) (rest : List (String × Flight))
    (acc : List FlightRecord) :
    (parse_flight_details env f.2 f.1 = .error () →
      runLoop env (f :: rest) acc = ⟨[], false⟩) ∧
    (parse_flight_details env f.2 f.1 = .ok none → acc ≠ [] →
      runLoop env (f :: rest) acc =
        ⟨stableSort dateLe acc :: (runLoop env rest acc).trace,
         (runLoop env rest acc).completed⟩) := by
  constructor
  · intro h
    have hstep : runStep env acc f = .error () := by
      unfold runStep
      rw [h, exceptBind_error]
    rw [runLoop_cons, hstep]
  · intro h hacc
    have hsv : sort_values acc = .ok (stableSort dateLe acc) := by
      unfold sort_values
      rw [if_neg (by simpa using hacc)]
    have hstep : runStep env acc f = .ok (acc, stableSort dateLe acc) := by
      unfold runStep
      rw [h, exceptBind_ok]
      simp only [Option.toList_none, List.append_nil, hsv, exceptBind_ok]
      rfl
    rw [runLoop_cons, hstep]

/-- C1, witness for the amended claim: a raising extraction terminates the
run; an invalid-flag file is skipped and the loop moves on. -/
theorem c1_amended_witness :
    runLoop envC1 [("a.igc", flightA)] [] = ⟨[], false⟩ ∧
    runLoop envNull [("bad.igc", flightInvalid)] [recA] =
      ⟨stableSort dateLe [recA] :: (runLoop envNull [] [recA]).trace,
       (runLoop envNull [] [recA]).completed⟩ :=
  ⟨(c1_amended envC1 ("a.igc", flightA) [] []).1 (by with_unfolding_all rfl),
   (c1_amended envNull ("bad.igc", flightInvalid) [] [recA]).2 (by rfl) (by simp)⟩

/-- C2, counterexample. The claim says the accumulated table is serialized
after every processed file, even a prefix in which every file was skipped
and zero records accumulated. In the code the frame built from an empty
record list has no columns, so the sort raises a key error: processing a
single invalid file persists nothing and kills the run. -/
theorem c2_counterexample :
    parse_flights envNull "igc" "out" [("bad.igc", flightInvalid)] = ⟨[], false⟩ := by
  with_unfolding_all rfl

/-- C2, amended. After each processed file — whether it yielded a record or
was skipped — the full accumulated table is sorted and serialized and the
loop continues, provided at least one record has been accumulated; with
zero accumulated records the sort step raises instead. -/
theorem c2_amended (env : Env) (f : String × Flight) (rest : List (String × Flight))
    (acc : List FlightRecord) (r : Option FlightRecord)
    (h : parse_flight_details env f.2 f.1 = .ok r) (hne : acc ++ r.toList ≠ []) :
    runLoop env (f :: rest) acc =
      ⟨stableSort dateLe (acc ++ r.toList) :: (runLoop env rest (acc ++ r.toList)).trace,
       (runLoop env rest (acc ++ r.toList)).completed⟩ := by
  have hsv : sort_values (acc ++ r.toList) = .ok (stableSort dateLe (acc ++ r.toList)) := by
    unfold sort_values
    rw [if_neg (by simpa using hne)]
  have hstep : runStep env acc f = .ok (acc ++ r.toList, stableSort dateLe (acc ++ r.toList)) := by
    unfold runStep
    rw [h, exceptBind_ok, hsv, exceptBind_ok]
    rfl
  rw [runLoop_cons, hstep]

/-- C2, witness for the amended claim: a skipped file with one prior
accumulated record still gets the full table persisted and the loop
continues. -/
theorem c2_amended_witness :
    runLoop envNull [("bad.igc", flightInvalid)] [recB] =
      ⟨stableSort dateLe ([recB] ++ (none : Option FlightRecord).toList) ::
        (runLoop envNull [] ([recB] ++ (none : Option FlightRecord).toList)).trace,
       (runLoop envNull [] ([recB] ++ (none : Option FlightRecord).toList)).completed⟩ :=
  c2_amended envNull ("bad.igc", flightInvalid) [] [recB] none (by rfl) (by simp)

/-- C3. The source passes each fix timestamp to the local-time conversion
(`datetime.fromtimestamp`), not the UTC one, while labelling the columns
UTC: on a machine one hour east of UTC a flight at 23:30/23:40 UTC on
January 1st is recorded as 00:30/00:40 with the date (day 2) taken from
the local landing time — the UTC interpretations the claim specifies are
23:30, 23:40 and day 1. -/
theorem c3_times_are_local_not_utc :
    (extractedRecord (parse_flight_details envTz flightC3 "gamma.igc")).map
        (fun r => (r.TakeoffTimeUTC, r.LandingTimeUTC, r.Day, r.Month, r.Year)) =
      some ("00:30", "00:40", 2, 1, 1970) ∧
    strftimeHM (datetime_fromtimestamp 0 flightC3.takeoff_fix.timestamp) = "23:30" ∧
    strftimeHM (datetime_fromtimestamp 0 flightC3.landing_fix.timestamp) = "23:40" ∧
    (datetime_fromtimestamp 0 flightC3.landing_fix.timestamp).day = 1 := by
  refine ⟨?_, ?_, ?_, ?_⟩ <;> with_unfolding_all rfl

/-- C4. With at least two qualifying candidates, the resolver returns the
name of the first candidate, in response order, whose integer-truncated
distance is minimal: every candidate compares greater-or-equal, every
earlier candidate compares strictly greater, and any candidate whose
truncated distance is strictly larger is also strictly farther in real
distance — so the winner is the minimum-distance candidate and equal
truncated distances are broken by response order. -/
theorem c4_nearest_candidate (env : Env) (loc : Location) (radius : ℤ)
    (nodes : List Node) (peaks : List Peak)
    (h1 : env.overpass radius loc.lat loc.lon = .ok nodes)
    (h2 : buildPeakList env loc nodes = .ok peaks)
    (h3 : 2 ≤ peaks.length) :
    ∃ l1 c l2, peaks = l1 ++ c :: l2 ∧
      find_closest_peak_to_location env loc radius = c.name ∧
      (∀ d ∈ peaks, pyInt c.distance ≤ pyInt d.distance) ∧
      (∀ d ∈ l1, pyInt c.distance < pyInt d.distance) ∧
      (∀ d ∈ peaks, pyInt c.distance < pyInt d.distance → c.distance < d.distance) := by
  have hne : peaks ≠ [] := by
    intro h
    rw [h] at h3
    simp at h3
  obtain ⟨l1, c, l2, he, hhead, hmin, hfirst⟩ :=
    head_stableSort_firstMin peakLe peakLe_trans peakLe_total peaks hne
  refine ⟨l1, c, l2, he, ?_, ?_, ?_, fun d _ hlt => pyInt_lt hlt⟩
  · unfold find_closest_peak_to_location
    simp only [h1, h2, exceptBind_ok]
    rw [hhead]
    rfl
  · intro d hd
    have hle := hmin d hd
    simpa [peakLe, decide_eq_true_eq] using hle
  · intro d hd
    have hlt := hfirst d hd
    have := decide_eq_false_iff_not.mp hlt
    simp only [peakLe] at this
    omega

/-- C4, witness: the specification example, candidates at 5.0, 1.2 and
3.4 kilometers; the resolver answers with the 1.2-kilometer candidate. -/
theorem c4_witness :
    (∃ l1 c l2, peaksW = l1 ++ c :: l2 ∧
      find_closest_peak_to_location envPeaks locDorf 2000 = c.name ∧
      (∀ d ∈ peaksW, pyInt c.distance ≤ pyInt d.distance) ∧
      (∀ d ∈ l1, pyInt c.distance < pyInt d.distance) ∧
      (∀ d ∈ peaksW, pyInt c.distance < pyInt d.distance → c.distance < d.distance)) ∧
    find_closest_peak_to_location envPeaks locDorf 2000 = "P2" :=
  ⟨c4_nearest_candidate envPeaks locDorf 2000 [nodeP1, nodeP2, nodeP3] peaksW
      rfl (by with_unfolding_all rfl) (by decide),
   by with_unfolding_all rfl⟩

/-- C5. The resolver is total and fails soft: a raising query, an empty
response, and a response with only untagged nodes all yield the fallback
label. -/
theorem c5_fallback (env : Env) (loc : Location) (radius : ℤ) :
    (env.overpass radius loc.lat loc.lon = .error () →
      find_closest_peak_to_location env loc radius = "Unknown Location") ∧
    (env.overpass radius loc.lat loc.lon = .ok [] →
      find_closest_peak_to_location env loc radius = "Unknown Location") ∧
    (∀ nodes, env.overpass radius loc.lat loc.lon = .ok nodes →
      (∀ n ∈ nodes, ¬qualifies n) →
      find_closest_peak_to_location env loc radius = "Unknown Location") := by
  refine ⟨?_, ?_, ?_⟩
  · intro h
    unfold find_closest_peak_to_location
    simp only [h, exceptBind_error]
  · intro h
    unfold find_closest_peak_to_location
    simp only [h, exceptBind_ok]
    rfl
  · intro nodes h hnq
    have hb : buildPeakList env loc nodes = .ok [] :=
      foldlM_processNode_nonqual env loc nodes [] hnq
    unfold find_closest_peak_to_location
    simp only [h, hb, exceptBind_ok]
    rfl

/-- C5, witness: the three failure shapes on concrete environments. -/
theorem c5_witness :
    find_closest_peak_to_location envErr locDorf 2000 = "Unknown Location" ∧
    find_closest_peak_to_location envNull locDorf 2000 = "Unknown Location" ∧
    find_closest_peak_to_location envUntagged locDorf 2000 = "Unknown Location" :=
  ⟨(c5_fallback envErr locDorf 2000).1 rfl,
   (c5_fallback envNull locDorf 2000).2.1 rfl,
   (c5_fallback envUntagged locDorf 2000).2.2 [nodeUntagged] rfl (by decide)⟩

/-- C6, counterexample. The claim says one malformed candidate does not
abort the query: with a malformed and a well-formed candidate the resolver
should still answer with the well-formed one. In the code the elevation
parse failure raises into the catch-all around the whole loop, so the call
returns the fallback label — removing the malformed candidate from the
same response yields the good candidate's name. -/
theorem c6_counterexample :
    find_closest_peak_to_location envC6 locDorf 2000 = "Unknown Location" ∧
    find_closest_peak_to_location envC6good locDorf 2000 = "P2" ∧
    qualifies nodeP2 ∧ nodeEle nodeBad = none := by
  refine ⟨?_, ?_, by decide, ?_⟩
  · with_unfolding_all rfl
  · with_unfolding_all rfl
  · with_unfolding_all rfl

/-- C6, amended. One qualifying candidate whose elevation string fails to
parse makes the whole lookup return the fallback label, discarding every
other well-formed candidate in the response (the failure is still absorbed,
never raised to the caller). -/
theorem c6_amended (env : Env) (loc : Location) (radius : ℤ)
    (nodes : List Node) (n : Node)
    (h : env.overpass radius loc.lat loc.lon = .ok nodes) (hn : n ∈ nodes)
    (hq : qualifies n) (he : nodeEle n = none) :
    find_closest_peak_to_location env loc radius = "Unknown Location" := by
  have hb : buildPeakList env loc nodes = .error () :=
    foldlM_processNode_error env loc nodes [] n hn hq he
  unfold find_closest_peak_to_location
  simp only [h, hb, exceptBind_ok, exceptBind_error]

/-- C6, witness for the amended claim. -/
theorem c6_amended_witness :
    find_closest_peak_to_location envC6 locStadt 2000 = "Unknown Location" :=
  c6_amended envC6 locStadt 2000 [nodeBad, nodeP2] nodeBad rfl
    (List.mem_cons_self _ _) (by decide) (by with_unfolding_all rfl)

/-- C7. For a valid track, the takeoff place label of the produced record
is the Nearest-Feature Resolver's answer over the reverse-geocoded takeoff
coordinate (default radius), while the landing label comes from the Place
Resolver — the two labels use the two different resolvers. -/
theorem c7_takeoff_uses_peak_resolver (env : Env) (flight : Flight) (name : String)
    (locT locL : Location) (hv : flight.valid = true)
    (ht : env.reverse flight.takeoff_fix.lat flight.takeoff_fix.lon = .ok locT)
    (hl : env.reverse flight.landing_fix.lat flight.landing_fix.lon = .ok locL) :
    ∃ rec, parse_flight_details env flight name = .ok (some rec) ∧
      rec.TakeoffLocation = find_closest_peak_to_location env locT ∧
      rec.LandingLocation = place_resolver locL := by
  unfold parse_flight_details
  rw [if_neg (fun hc => by rw [hv] at hc; exact Bool.noConfusion hc)]
  simp only [ht, hl, exceptBind_ok]
  exact ⟨_, rfl, rfl, rfl⟩

/-- C7, witness: a track whose takeoff and landing resolve to different
places; the takeoff label is the peak resolver's output. -/
theorem c7_witness :
    ∃ rec, parse_flight_details envC7 flightA "a.igc" = .ok (some rec) ∧
      rec.TakeoffLocation = find_closest_peak_to_location envC7 locTake ∧
      rec.LandingLocation = place_resolver locDorf :=
  c7_takeoff_uses_peak_resolver envC7 flightA "a.igc" locTake locDorf rfl
    (by with_unfolding_all rfl) (by with_unfolding_all rfl)

/-- C8, counterexample. The claim says the city field value is returned
whenever a city field is present. The code tests Python truthiness, not
presence: with a present-but-empty city field and a village field, the
village value is returned instead of the empty city value. -/
theorem c8_counterexample :
    place_resolver locEmptyCity = "Dorf" ∧
    locEmptyCity.address.city = some "" ∧ ("Dorf" : String) ≠ "" := by
  refine ⟨by rfl, rfl, by decide⟩

/-- C8, amended. The city value is returned when the city field is present
with a non-empty value (even when a village field is also present);
otherwise — city absent or present as the empty string — the village value
is returned when present, and the empty string when neither is present. -/
theorem c8_amended (loc : Location) :
    (∀ c, loc.address.city = some c → c ≠ "" → place_resolver loc = c) ∧
    ((loc.address.city = none ∨ loc.address.city = some "") →
      place_resolver loc = loc.address.village.getD "") := by
  constructor
  · intro c hc hne
    unfold place_resolver
    rw [hc]
    simp [hne]
  · intro hc
    unfold place_resolver
    rcases hc with hc | hc <;> rw [hc] <;> simp

/-- C8, witness: city precedence, empty-city fallback, and the
neither-field case. -/
theorem c8_witness :
    place_resolver locStadt = "Stadt" ∧
    place_resolver locEmptyCity = (locEmptyCity.address.village.getD "") ∧
    place_resolver locNoPlace = (locNoPlace.address.village.getD "") :=
  ⟨(c8_amended locStadt).1 "Stadt" rfl (by decide),
   (c8_amended locEmptyCity).2 (Or.inr rfl),
   (c8_amended locNoPlace).2 (Or.inl rfl)⟩

/-- C9. Every table persisted during a run is sorted ascending by the
(Year, Month, Day) key, and the sort step is a permutation of the
accumulated records that is stable: any equal-key subsequence keeps its
prior relative order. -/
theorem c9_sorted_stable :
    (∀ (env : Env) (igc out : String) (files : List (String × Flight))
        (t : List FlightRecord),
      t ∈ (parse_flights env igc out files).trace → t.Pairwise dateLeP) ∧
    (∀ rs t : List FlightRecord, sort_values rs = .ok t →
      t.Pairwise dateLeP ∧ t.Perm rs ∧
        ∀ s : List FlightRecord, s.Sublist rs → s.Pairwise sameDate → s.Sublist t) := by
  constructor
  · intro env igc out files t ht
    unfold parse_flights at ht
    split_ifs at ht with h1 h2 h3
    · simp at ht
    · simp at ht
    · simp at ht
    · exact runLoop_trace_sorted env files [] t ht
  · intro rs t h
    exact sort_values_spec h

/-- C9, witness: a persisted table of a concrete run is sorted, and the
sort of two out-of-order records is a sorted, stable permutation. -/
theorem c9_witness :
    tblW.Pairwise dateLeP ∧
    ((stableSort dateLe [recA, recB]).Pairwise dateLeP ∧
      (stableSort dateLe [recA, recB]).Perm [recA, recB] ∧
      ∀ s : List FlightRecord, s.Sublist [recA, recB] → s.Pairwise sameDate →
        s.Sublist (stableSort dateLe [recA, recB])) :=
  ⟨c9_sorted_stable.1 envNull "igc" "out" [("b.igc", flightB)] tblW
      (by with_unfolding_all exact List.mem_cons_self _ _),
   c9_sorted_stable.2 [recA, recB] (stableSort dateLe [recA, recB]) rfl⟩

/-- C10. For a valid track the record's total thermal gain is the sum of
the individually rounded per-thermal gains; summing first and rounding once
differs in general — on gains of 0.4 and 0.4 the per-thermal rounding gives
0 while rounding the sum 0.8 gives 1. -/
theorem c10_gain_is_sum_of_rounds (env : Env) (flight : Flight) (name : String)
    (locT locL : Location) (hv : flight.valid = true)
    (ht : env.reverse flight.takeoff_fix.lat flight.takeoff_fix.lon = .ok locT)
    (hl : env.reverse flight.landing_fix.lat flight.landing_fix.lon = .ok locL) :
    (∃ rec, parse_flight_details env flight name = .ok (some rec) ∧
      rec.ThermalGain = (flight.thermals.map (fun t => pythonRound t.alt_change)).sum) ∧
    ([(2 : ℚ)/5, 2/5].map pythonRound).sum = 0 ∧
    pythonRound ([(2 : ℚ)/5, 2/5].sum) = 1 := by
  refine ⟨?_, by with_unfolding_all rfl, by with_unfolding_all rfl⟩
  unfold parse_flight_details
  rw [if_neg (fun hc => by rw [hv] at hc; exact Bool.noConfusion hc)]
  simp only [ht, hl, exceptBind_ok]
  refine ⟨_, rfl, ?_⟩
  show flight.thermals.foldl (fun acc t => acc + pythonRound t.alt_change) 0 = _
  rw [foldl_round_eq_sum]
  exact zero_add _

/-- C10, witness: gains 10.5 and 11.5 round to even as 10 and 12; the
recorded gain is 22. -/
theorem c10_witness :
    (∃ rec, parse_flight_details envNull flightThermals "d.igc" = .ok (some rec) ∧
      rec.ThermalGain =
        (flightThermals.thermals.map (fun t => pythonRound t.alt_change)).sum) ∧
    ([(2 : ℚ)/5, 2/5].map pythonRound).sum = 0 ∧
    pythonRound ([(2 : ℚ)/5, 2/5].sum) = 1 :=
  c10_gain_is_sum_of_rounds envNull flightThermals "d.igc" locDorf locDorf rfl rfl rfl

end Flightbook
